import Mathlib

/-!
Verification of the timing-decorator micro-benchmark repository.

The repository has three Python files:
* `time_decorator.py` defines `report_time`, a decorator whose inner
  `wrapper` reads the clock, calls the wrapped function, reads the clock
  again and returns the pair `(ret, difftime)`.
* `gil_test_cpu_bound.py` defines the busy-decrement workload `count`,
  two wrapped workloads `run_threaded` and `run_sequential`, and a
  driver loop that runs both ten times and prints timings and averages.
* `gil_test_io_bound.py` runs a fixed-timeout blocking wait on two
  threads and sequentially.

The embedding models the clock as a function `Nat → ℚ` from the index of
a clock read to the reading, and an effectful Python callable as a
state-passing function over the clock-read counter together with an
abstract world component; a raised exception is an `Except.error`.
-/

/-- A timed operation: from arguments `α`, the clock-read counter and a
world `σ`, produce either a raised exception `ε` or a return value `β`,
together with the updated counter and world. -/
def Op (α ε β σ : Type) : Type :=
  α → Nat → σ → Except ε β × Nat × σ

/-- One call of `time.time()`: read the clock at the current counter and
advance the counter. -/
def timeNow (clock : Nat → ℚ) (k : Nat) : ℚ × Nat :=
  (clock k, k + 1)

/-- `report_time` from `time_decorator.py`: the returned `wrapper` reads
`now = time.time()`, runs `ret = func(*args, **kwargs)`, computes
`difftime = time.time() - now` and returns `(ret, difftime)`.  If `func`
raises, the remaining statements do not run and the exception
propagates with the state `func` left behind. -/
def report_time {α ε β σ : Type} (clock : Nat → ℚ) (func : Op α ε β σ) :
    Op α ε (β × ℚ) σ :=
  fun args k w =>
    let p := timeNow clock k
    match func args p.2 w with
    | (Except.error e, k2, w2) => (Except.error e, k2, w2)
    | (Except.ok ret, k2, w2) =>
        let q := timeNow clock k2
        (Except.ok (ret, q.1 - p.1), q.2, w2)

/-- The loop of `count` in `gil_test_cpu_bound.py` (`while n > 0: n -= 1`),
returning the final value of the local variable `n`. -/
def countW (n : Int) : Int :=
  if 0 < n then countW (n - 1) else n
termination_by n.toNat
decreasing_by
  omega

/-- `count(n)` from `gil_test_cpu_bound.py`: runs the loop and, having no
return statement, returns Python `None`, modelled by `Unit`. -/
def count (n : Int) : Unit :=
  let _m := countW n
  ()

/-- Fuel-indexed version of the `count` loop that also counts the number
of decrements performed; `none` means the fuel ran out before the loop
finished, so `some` on sufficient fuel witnesses termination. -/
def countFuel : Nat → Int → Option (Int × Nat)
  | 0, n => if 0 < n then none else some (n, 0)
  | f + 1, n =>
      if 0 < n then (countFuel f (n - 1)).map (fun r => (r.1, r.2 + 1))
      else some (n, 0)

/-- `count` as a timed operation: it raises nothing, reads no clock and
touches no world state. -/
def count_op : Op Int Empty Unit Unit :=
  fun n k w => (Except.ok (count n), k, w)

/-- The zero-argument operation `lambda: 2 + 2` of concrete scenario 1. -/
def two_plus_two_op : Op Unit Empty Int Unit :=
  fun _ k w => (Except.ok (2 + 2), k, w)

/-- An identity clock used to instantiate theorems at concrete inputs. -/
def idClock : Nat → ℚ := fun n => (n : ℚ)

/-- A concrete pure operation: the successor function on `Nat`. -/
def succ_op : Op Nat String Nat Unit := fun a k w => (Except.ok (a + 1), k, w)

/-- A concrete always-raising operation. -/
def boom_op : Op Unit String Nat Unit := fun _ k w => (Except.error "boom", k, w)

/-- A concrete pure operation: doubling on `Nat`. -/
def double_op : Op Nat String Nat Unit := fun a k w => (Except.ok (2 * a), k, w)

/-- Helper: the identity clock is monotone. -/
theorem idClock_mono : Monotone idClock := by
  intro i j hij
  unfold idClock
  exact_mod_cast hij

/-- Helper: with at least `n.toNat` fuel the `count` loop finishes, ends
with `n = 0` when it entered at a positive value (unchanged otherwise),
and performs exactly `n.toNat` decrements. -/
theorem countFuel_eq (fuel : Nat) (n : Int) (h : n.toNat ≤ fuel) :
    countFuel fuel n = some (if 0 < n then 0 else n, n.toNat) := by
  induction fuel generalizing n with
  | zero =>
      have hn : ¬ 0 < n := by omega
      have hz : n.toNat = 0 := by omega
      simp [countFuel, hn, hz]
  | succ f ih =>
      by_cases hn : 0 < n
      · have hle : (n - 1).toNat ≤ f := by omega
        have := ih (n - 1) hle
        simp only [countFuel, hn, if_true, this, Option.map_some]
        by_cases h1 : 0 < n - 1
        · simp [h1, hn]
          omega
        · have hone : n = 1 := by omega
          simp [h1, hn, hone]
      · simp [countFuel, hn]
        omega

/-- C1: for every pure, terminating operation `func` (its value is
`g args` independently of clock and world, and it never moves the clock
counter backwards) and a monotone clock, the wrapped call returns the
pair of exactly the value of `func` and a non-negative elapsed time. -/
theorem report_time_pure_correct {α ε β σ : Type} (clock : Nat → ℚ)
    (hclock : Monotone clock) (func : Op α ε β σ) (g : α → β)
    (hpure : ∀ a k w, (func a k w).1 = Except.ok (g a))
    (hfwd : ∀ a k w, k ≤ (func a k w).2.1)
    (a : α) (k : Nat) (w : σ) :
    ∃ t : ℚ, 0 ≤ t ∧ (report_time clock func a k w).1 = Except.ok (g a, t) := by
  have hres := hpure a (k + 1) w
  have hk := hfwd a (k + 1) w
  rcases hr : func a (k + 1) w with ⟨res, k2, w2⟩
  rw [hr] at hres hk
  simp only at hres hk
  refine ⟨clock k2 - clock k, ?_, ?_⟩
  · have h1 : clock k ≤ clock k2 := hclock (by omega)
    linarith
  · simp only [report_time, timeNow, hr, hres]

/-- C1 witness: the successor function timed with the identity clock at
argument 5 yields value 6 and a non-negative elapsed time. -/
theorem report_time_pure_correct_witness :
    ∃ t : ℚ, 0 ≤ t ∧
      (report_time idClock succ_op 5 0 ()).1 = Except.ok (6, t) :=
  report_time_pure_correct idClock idClock_mono succ_op (fun a => a + 1)
    (fun _ _ _ => rfl) (fun _ k _ => Nat.le_refl k) 5 0 ()

/-- C2: if the wrapped operation raises, the wrapper returns exactly that
exception with the state the operation left, producing no timing pair;
and every call of the wrapper either raises or returns a pair. -/
theorem report_time_error_propagates {α ε β σ : Type} (clock : Nat → ℚ)
    (func : Op α ε β σ) (a : α) (k : Nat) (w : σ) (e : ε)
    (h : (func a (k + 1) w).1 = Except.error e) :
    report_time clock func a k w = (Except.error e, (func a (k + 1) w).2) ∧
    ∀ (func2 : Op α ε β σ) (a2 : α) (k2 : Nat) (w2 : σ),
      (∃ e2, (report_time clock func2 a2 k2 w2).1 = Except.error e2) ∨
      (∃ p, (report_time clock func2 a2 k2 w2).1 = Except.ok p) := by
  constructor
  · rcases hr : func a (k + 1) w with ⟨res, k2, w2⟩
    rw [hr] at h
    simp only at h
    simp only [report_time, timeNow, hr, h]
  · intro func2 a2 k2 w2
    rcases hres : (report_time clock func2 a2 k2 w2).1 with e2 | p
    · exact Or.inl ⟨e2, rfl⟩
    · exact Or.inr ⟨p, rfl⟩

/-- C2 witness: an operation that always raises the string exception
`boom` propagates it through the wrapper unmodified. -/
theorem report_time_error_propagates_witness :
    report_time idClock boom_op () 0 () = (Except.error "boom", 1, ()) ∧
    ∀ (func2 : Op Unit String Nat Unit) (a2 : Unit) (k2 : Nat) (w2 : Unit),
      (∃ e2, (report_time idClock func2 a2 k2 w2).1 = Except.error e2) ∨
      (∃ p, (report_time idClock func2 a2 k2 w2).1 = Except.ok p) :=
  report_time_error_propagates idClock boom_op () 0 () "boom" rfl

/-- C3: wrapping a pure deterministic operation and calling it twice (in
any two states) yields the same first component, the value of the
operation, in both returned pairs. -/
theorem report_time_idempotent_value {α ε β σ : Type} (clock : Nat → ℚ)
    (func : Op α ε β σ) (g : α → β)
    (hpure : ∀ a k w, (func a k w).1 = Except.ok (g a))
    (a : α) (k1 k2 : Nat) (w1 w2 : σ) :
    ∃ t1 t2 : ℚ,
      (report_time clock func a k1 w1).1 = Except.ok (g a, t1) ∧
      (report_time clock func a k2 w2).1 = Except.ok (g a, t2) := by
  have h1 := hpure a (k1 + 1) w1
  have h2 := hpure a (k2 + 1) w2
  rcases hr1 : func a (k1 + 1) w1 with ⟨res1, j1, v1⟩
  rcases hr2 : func a (k2 + 1) w2 with ⟨res2, j2, v2⟩
  rw [hr1] at h1
  rw [hr2] at h2
  simp only at h1 h2
  exact ⟨clock j1 - clock (k1 + 0), clock j2 - clock (k2 + 0),
    by simp only [report_time, timeNow, hr1, h1, Nat.add_zero],
    by simp only [report_time, timeNow, hr2, h2, Nat.add_zero]⟩

/-- C3 witness: the doubling operation wrapped and called in two
different states returns value 14 both times. -/
theorem report_time_idempotent_value_witness :
    ∃ t1 t2 : ℚ,
      (report_time idClock double_op 7 0 ()).1 = Except.ok (14, t1) ∧
      (report_time idClock double_op 7 5 ()).1 = Except.ok (14, t2) :=
  report_time_idempotent_value idClock double_op (fun a => 2 * a)
    (fun _ _ _ => rfl) 7 0 5 () ()

/-- C4: wrapping the zero-argument operation `lambda: 2 + 2` and calling
it returns the pair `(4, t)` with `t ≥ 0` (for any monotone clock), the
counter having advanced by the wrapper's two clock reads. -/
theorem report_time_two_plus_two (clock : Nat → ℚ) (hclock : Monotone clock)
    (k : Nat) (w : Unit) :
    ∃ t : ℚ, 0 ≤ t ∧
      report_time clock two_plus_two_op () k w = (Except.ok (4, t), k + 2, w) := by
  refine ⟨clock (k + 1) - clock k, ?_, ?_⟩
  · have h1 : clock k ≤ clock (k + 1) := hclock (Nat.le_succ k)
    linarith
  · simp only [report_time, timeNow, two_plus_two_op]
    norm_num

/-- C4 witness: with the identity clock the wrapped `lambda: 2 + 2`
returns `(4, t)` with `t ≥ 0`. -/
theorem report_time_two_plus_two_witness :
    ∃ t : ℚ, 0 ≤ t ∧
      report_time idClock two_plus_two_op () 0 () = (Except.ok (4, t), 2, ()) :=
  report_time_two_plus_two idClock idClock_mono 0 ()

/-- C5: for every non-negative `N` the busy-decrement workload
terminates (witnessed by `countFuel` succeeding on `N.toNat` fuel,
performing exactly `N.toNat` decrements), and running it through the
timing wrapper returns a pair whose first component is `None`. -/
theorem count_via_wrapper (clock : Nat → ℚ) (N : Int) (hN : 0 ≤ N)
    (k : Nat) (w : Unit) :
    countFuel N.toNat N = some (if 0 < N then 0 else N, N.toNat) ∧
    ∃ t : ℚ, (report_time clock count_op N k w).1 = Except.ok ((), t) := by
  refine ⟨countFuel_eq N.toNat N (Nat.le_refl _), clock (k + 1) - clock k, ?_⟩
  simp only [report_time, timeNow, count_op]

/-- C5 witness: at `N = 5` the loop finishes at `0` after 5 decrements
and the wrapped call returns first component `None`. -/
theorem count_via_wrapper_witness :
    countFuel 5 5 = some (0, 5) ∧
    ∃ t : ℚ, (report_time idClock count_op 5 0 ()).1 = Except.ok ((), t) := by
  have h := count_via_wrapper idClock 5 (by decide) 0 ()
  simpa using h

/-- C7: the timing wrapper is effect-free on its own: the world component
after a wrapped call is exactly the world component `func` itself
produced; the wrapper only reads the clock and builds the result pair. -/
theorem report_time_frame {α ε β σ : Type} (clock : Nat → ℚ)
    (func : Op α ε β σ) (a : α) (k : Nat) (w : σ) :
    (report_time clock func a k w).2.2 = (func a (k + 1) w).2.2 := by
  rcases hr : func a (k + 1) w with ⟨res, k2, w2⟩
  cases res <;> simp [report_time, timeNow, hr]

/-- Instrumentation for C9: wrap a world-free operation so that the world
component counts how many times the operation has been invoked. -/
def countCalls {α ε β : Type} (func : α → Nat → Except ε β × Nat) :
    Op α ε β Nat :=
  fun a k c =>
    let r := func a k
    (r.1, r.2, c + 1)

/-- C9: one call of the wrapped function invokes the wrapped operation
exactly once: the invocation counter rises by exactly one, whatever the
operation, its arguments and the starting state.  (That merely applying
`report_time` to an operation runs nothing holds by construction: the
wrapper is a function value and touches no state until called.) -/
theorem report_time_calls_once {α ε β : Type} (clock : Nat → ℚ)
    (func : α → Nat → Except ε β × Nat) (a : α) (k c : Nat) :
    (report_time clock (countCalls func) a k c).2.2 = c + 1 := by
  rcases hr : func a (k + 1) with ⟨res, k2⟩
  cases res <;> simp [report_time, timeNow, countCalls, hr]

/-- C10: the busy-decrement loop terminates for every integer `n`:
given any fuel of at least `n.toNat`, it ends at `0` for positive `n`
(after exactly `n.toNat` decrements) and otherwise leaves `n` unchanged;
`count` returns `None`; and for `n ≤ 0` the guard fails at once, so zero
fuel suffices and no decrement is performed. -/
theorem count_terminates (n : Int) (fuel : Nat) (h : n.toNat ≤ fuel) :
    countFuel fuel n = some (if 0 < n then 0 else n, n.toNat) ∧
    count n = () ∧
    (n ≤ 0 → countFuel 0 n = some (n, 0)) := by
  refine ⟨countFuel_eq fuel n h, rfl, fun hn => ?_⟩
  have hng : ¬ 0 < n := by omega
  simp [countFuel, hng]

/-- C10 witness: at `n = -3` the loop terminates immediately with no
decrement, and `count (-3)` is `None`. -/
theorem count_terminates_witness :
    countFuel 0 (-3) = some (-3, 0) ∧
    count (-3) = () ∧
    ((-3 : Int) ≤ 0 → countFuel 0 (-3) = some (-3, 0)) := by
  have h := count_terminates (-3) 0 (by decide)
  simpa using h

/-- One printed line of the CPU-bound driver: either a per-repetition
`f'{seq_time},{thread_time}'` line or the final averages line. -/
inductive OutLine : Type
  | timing (seq thread : ℚ)
  | summary (seqAvg threadAvg : ℚ)
deriving DecidableEq

/-- Destructure a result that cannot be an exception, as the driver does
with `_, thread_time = run_threaded()`. -/
def getOk {γ : Type} : Except Empty γ → γ
  | Except.ok x => x
  | Except.error e => e.elim

/-- The body of `run_threaded`: it starts two threads running
`count(10000000)` and joins them; the child-thread work is the same two
`count` computations and the body reads no clock on the driver thread. -/
def run_threaded_body : Op Unit Empty Unit Unit :=
  fun _ k w =>
    let _t1 := count 10000000
    let _t2 := count 10000000
    (Except.ok (), k, w)

/-- The body of `run_sequential`: `count(10000000)` twice, returning
`None`; it reads no clock. -/
def run_sequential_body : Op Unit Empty Unit Unit :=
  fun _ k w =>
    let _r1 := count 10000000
    let _r2 := count 10000000
    (Except.ok (), k, w)

/-- The mutable state of the driver loop in `gil_test_cpu_bound.py`:
the clock counter and the lists `seq_times`, `thread_times`, plus the
lines printed so far. -/
structure DriverState : Type where
  ticks : Nat
  seq_times : List ℚ
  thread_times : List ℚ
  lines : List OutLine
deriving DecidableEq

/-- One iteration of the driver loop: `_, thread_time = run_threaded()`,
then `_, seq_time = run_sequential()`, then print
`f'{seq_time},{thread_time}'` and append to both lists. -/
def cpuLoopStep (clock : Nat → ℚ) (st : DriverState) : DriverState :=
  let r1 := report_time clock run_threaded_body () st.ticks ()
  let thread_time := (getOk r1.1).2
  let r2 := report_time clock run_sequential_body () r1.2.1 ()
  let seq_time := (getOk r2.1).2
  { ticks := r2.2.1,
    seq_times := st.seq_times ++ [seq_time],
    thread_times := st.thread_times ++ [thread_time],
    lines := st.lines ++ [OutLine.timing seq_time thread_time] }

/-- The module-level driver of `gil_test_cpu_bound.py`: `for i in
range(10)` runs the loop body, and afterwards one line with
`sum(seq_times)/len(seq_times)` and `sum(thread_times)/len(thread_times)`
is printed. -/
def cpuMain (clock : Nat → ℚ) : List OutLine :=
  let st := (List.range 10).foldl (fun s _ => cpuLoopStep clock s) ⟨0, [], [], []⟩
  st.lines ++
    [OutLine.summary (st.seq_times.sum / (st.seq_times.length : ℚ))
                     (st.thread_times.sum / (st.thread_times.length : ℚ))]

/-- C6: the CPU-bound driver performs exactly 10 repetitions, each
running the threaded workload (clock reads `4*i` and `4*i+1`) and then
the sequential workload (clock reads `4*i+2` and `4*i+3`), prints one
timing line with the two numbers per repetition, and ends with one line
holding the average of the 10 sequential and the 10 threaded times. -/
theorem cpuMain_output (clock : Nat → ℚ) :
    cpuMain clock =
      [OutLine.timing (clock 3 - clock 2) (clock 1 - clock 0),
       OutLine.timing (clock 7 - clock 6) (clock 5 - clock 4),
       OutLine.timing (clock 11 - clock 10) (clock 9 - clock 8),
       OutLine.timing (clock 15 - clock 14) (clock 13 - clock 12),
       OutLine.timing (clock 19 - clock 18) (clock 17 - clock 16),
       OutLine.timing (clock 23 - clock 22) (clock 21 - clock 20),
       OutLine.timing (clock 27 - clock 26) (clock 25 - clock 24),
       OutLine.timing (clock 31 - clock 30) (clock 29 - clock 28),
       OutLine.timing (clock 35 - clock 34) (clock 33 - clock 32),
       OutLine.timing (clock 39 - clock 38) (clock 37 - clock 36),
       OutLine.summary
         (((clock 3 - clock 2) + (clock 7 - clock 6) + (clock 11 - clock 10) +
           (clock 15 - clock 14) + (clock 19 - clock 18) + (clock 23 - clock 22) +
           (clock 27 - clock 26) + (clock 31 - clock 30) + (clock 35 - clock 34) +
           (clock 39 - clock 38)) / 10)
         (((clock 1 - clock 0) + (clock 5 - clock 4) + (clock 9 - clock 8) +
           (clock 13 - clock 12) + (clock 17 - clock 16) + (clock 21 - clock 20) +
           (clock 25 - clock 24) + (clock 29 - clock 28) + (clock 33 - clock 32) +
           (clock 37 - clock 36)) / 10)] := by
  unfold cpuMain
  rw [show List.range 10 = [0, 1, 2, 3, 4, 5, 6, 7, 8, 9] from rfl]
  simp only [cpuLoopStep, report_time, timeNow, run_threaded_body,
    run_sequential_body, getOk, List.foldl_cons, List.foldl_nil,
    List.append_assoc, List.nil_append, List.cons_append, List.sum_cons,
    List.sum_nil, List.length_cons, List.length_nil]
  norm_num [OutLine.timing.injEq, OutLine.summary.injEq]
  constructor <;> ring
